import Mathlib

/-! A5.c : bounded frame extraction followed by looped playback

A shallow embedding of `src/A5.c`.  The program has two sequential phases.

* Fill phase (`main`, `decode_packet`, `save_rgb_frame`, `allocateFrame`):
  packets are read from the container, video packets are handed to the
  decoder, every decoded frame is converted to RGB24 and stored in the global
  `rgb_frame_array` at index `frame_number - 1`.
* Playback phase (`refresh_screen`, `update_position`, `on_draw_event`): a
  timer advances the global `animate_position` and the draw handler copies
  the frame at that position into a cairo surface.

The libraries (ffmpeg, cairo, GTK) are external.  Their answers are inputs of
the model: a packet carries the return values the decoder gives for it, and a
received frame carries the outcome of the two allocations made while it is
converted.  `exit` is modelled by `Except.error code`.  A store past the end
of `rgb_frame_array` is kept on record and makes the run end in
`Run.overrun`, where nothing further is asserted.  C `int` values are
`Int`; no quantity of the model comes near the 32 bit range on the inputs
considered, and the places where this matters are noted.
-/

set_option maxRecDepth 100000

namespace A5

/-! ## Constants -/

/-- Height of the window, `#define WIN_HEIGHT 250`. -/
def WIN_HEIGHT : Nat := 250

/-- Width of the window, `#define WIN_WIDTH 320`. -/
def WIN_WIDTH : Nat := 320

/-- Number of slots of `rgb_frame_array`, `#define NUM_FRAMES 100`. -/
def NUM_FRAMES : Nat := 100

/-- Timer period in milliseconds, `#define SPEED_OF_VIDEO 100`. -/
def SPEED_OF_VIDEO : Nat := 100

/-- Value of `AVERROR(EAGAIN)` on Linux, where `EAGAIN` is 11. -/
def AVERROR_EAGAIN : Int := -11

/-- Value of `AVERROR_EOF`, the negated tag `FFERRTAG('E','O','F',' ')`. -/
def AVERROR_EOF : Int := -541478725

/-! ## Data -/

/-- One `unsigned char` of pixel data. -/
abbrev Byte := Fin 256

/-- The fields of an RGB `AVFrame` that the program uses: `width`, `height`,
`linesize[0]` and the buffer `data[0]` (empty when no buffer is attached). -/
structure AVFrame where
  width : Nat
  height : Nat
  linesize : Nat
  data : List Byte
  deriving DecidableEq, Repr

/-- The decoder's frame `pFrame` as the program sees it: its dimensions, and
the byte that the external colour conversion `sws_scale` writes at each offset
of an RGB24 destination buffer. -/
structure DecodedFrame where
  width : Nat
  height : Nat
  rgb : Nat → Byte

/-- One call of `avcodec_receive_frame`: its return value, the frame left in
`pFrame`, and whether `av_frame_alloc` and `av_image_alloc` succeed when that
frame is converted. -/
structure Received where
  response : Int
  pFrame : DecodedFrame
  av_frame_alloc_ok : Bool
  av_image_alloc_ok : Bool

/-- One packet returned by `av_read_frame`: its stream, the return value of
`avcodec_send_packet` for it and the successive answers of
`avcodec_receive_frame` after it was sent. -/
structure AVPacket where
  stream_index : Int
  send_response : Int
  received : List Received

/-- The variables the fill phase works on: the decoder's counter
`pCodecContext->frame_number`, the global `rgb_frame_array`, the locals
`response` and `num_of_packets_to_process` of `main`, and (a ghost field) the
index of every store made by `save_rgb_frame`, oldest first. -/
structure FillState where
  frame_number : Int
  rgb_frame_array : List (Option AVFrame)
  response : Int
  num_of_packets_to_process : Int
  stores : List Int

/-- State at the start of the fill loop: a fresh decoder, the zero-initialised
static array, `response = 0` and `num_of_packets_to_process = NUM_FRAMES`. -/
def FillState.init : FillState :=
  { frame_number := 0
    rgb_frame_array := List.replicate NUM_FRAMES none
    response := 0
    num_of_packets_to_process := NUM_FRAMES
    stores := [] }

/-- Read `rgb_frame_array[index]`: the frame stored there, or `none` for a
`NULL` slot.  An index outside the array has no slot. -/
def array_get (arr : List (Option AVFrame)) (index : Int) : Option AVFrame :=
  if 0 ≤ index ∧ index < arr.length then (arr.getD index.toNat none) else none

/-- Write `rgb_frame_array[index] = frame`.  The program makes the store
without a bound check (A5.c 417-418); outside the array it lands in whatever
lies behind the array, which C leaves undefined.  The list only holds the 100
slots, so such a store leaves it as it is; it stays on record in
`FillState.stores`, and `main` ends in `Run.overrun` when there is one. -/
def array_set (arr : List (Option AVFrame)) (index : Int) (frame : AVFrame) :
    List (Option AVFrame) :=
  if 0 ≤ index ∧ index < arr.length then arr.set index.toNat (some frame) else arr

/-- Number of frames stored by the fill phase: one per `save_rgb_frame`. -/
def N_filled (st : FillState) : Nat := st.stores.length

/-! ## Frame converter -/

/-- Result of `av_frame_alloc`: a blank frame, or `none` for `NULL`. -/
def av_frame_alloc (ok : Bool) : Option AVFrame :=
  if ok then some { width := 0, height := 0, linesize := 0, data := [] } else none

/-- Effect of `av_image_alloc(data, linesize, width, height, RGB24, 1)`: on
success the frame gets a line size of `3 * width` bytes and a buffer of
`3 * width * height` bytes and the call returns the buffer size; on failure
the frame is left alone and the call returns a negative value. -/
def av_image_alloc (newFrame : AVFrame) (width height : Nat) (ok : Bool) : Int × AVFrame :=
  if ok then
    ((3 * width * height : Nat),
      { newFrame with linesize := 3 * width, data := List.replicate (3 * width * height) 0 })
  else (-12, newFrame)

/-- The function `allocateFrame` (A5.c 430-450).  A failed `av_frame_alloc`
calls `exit(1)`; a failed `av_image_alloc` is only logged. -/
def allocateFrame (width height : Nat) (av_frame_alloc_ok av_image_alloc_ok : Bool) :
    Except Int AVFrame :=
  match av_frame_alloc av_frame_alloc_ok with
  | none => .error 1
  | some newFrame =>
    -- `if (av_image_alloc(...) < 0)` guards a `logging` call and nothing else
    let newFrame := (av_image_alloc newFrame width height av_image_alloc_ok).2
    .ok { newFrame with width := width, height := height }

/-- The external `sws_scale`: fills the destination buffer with the converted
pixels of `pFrame`. -/
def sws_scale (pFrame : DecodedFrame) (frame_rgb : AVFrame) : AVFrame :=
  { frame_rgb with data := (List.range frame_rgb.data.length).map pFrame.rgb }

/-- The function `save_rgb_frame` (A5.c 404-421): allocate, convert, store at
index `fnumber - 1`. -/
def save_rgb_frame (pFrame : DecodedFrame) (fnumber : Int)
    (av_frame_alloc_ok av_image_alloc_ok : Bool) (st : FillState) : Except Int FillState :=
  match allocateFrame pFrame.width pFrame.height av_frame_alloc_ok av_image_alloc_ok with
  | .error code => .error code
  | .ok frame_rgb =>
    let frame_rgb := sws_scale pFrame frame_rgb
    let index : Int := fnumber - 1
    .ok { st with
      rgb_frame_array := array_set st.rgb_frame_array index frame_rgb
      stores := st.stores ++ [index] }

/-! ## Decode loop -/

/-- The receive loop of `decode_packet` (A5.c 340-369).  The decoder counts a
frame in `frame_number` before returning it.  When the scripted answers run
out the decoder has nothing more for this packet, which it reports as
`AVERROR(EAGAIN)`. -/
def receive_frames : List Received → FillState → Except Int (Int × FillState)
  | [], st => .ok (0, st)
  | r :: rest, st =>
    if r.response = AVERROR_EAGAIN ∨ r.response = AVERROR_EOF then .ok (0, st)
    else if r.response < 0 then .ok (r.response, st)
    else
      let st1 := { st with frame_number := st.frame_number + 1 }
      match save_rgb_frame r.pFrame st1.frame_number r.av_frame_alloc_ok
          r.av_image_alloc_ok st1 with
      | .error code => .error code
      | .ok st2 => receive_frames rest st2

/-- The function `decode_packet` (A5.c 332-370): the value it returns and the
state it leaves. -/
def decode_packet (pPacket : AVPacket) (st : FillState) : Except Int (Int × FillState) :=
  if pPacket.send_response < 0 then .ok (pPacket.send_response, st)
  else receive_frames pPacket.received st

/-- The fill loop of `main` (A5.c 257-273) over the packets `av_read_frame`
delivers; the end of the list is `av_read_frame` returning a negative
value. -/
def fill_loop (video_stream_index : Int) : List AVPacket → FillState → Except Int FillState
  | [], st => .ok st
  | pPacket :: rest, st =>
    if pPacket.stream_index = video_stream_index then
      match decode_packet pPacket st with
      | .error code => .error code
      | .ok (response, st1) =>
        let st2 := { st1 with response := response }
        if response < 0 then .ok st2
        else
          let st3 := { st2 with
            num_of_packets_to_process := st2.num_of_packets_to_process - 1 }
          if st3.num_of_packets_to_process ≤ 0 then .ok st3
          else fill_loop video_stream_index rest st3
    else fill_loop video_stream_index rest st

/-! ## The program -/

/-- Kind of a stream, `codecpar->codec_type`. -/
inductive AVMediaType
  | video
  | audio
  | other
  deriving DecidableEq, Repr

/-- What `main` looks at in a stream: whether `avcodec_find_decoder` finds a
decoder for it, and its type. -/
structure AVStream where
  decoder_found : Bool
  codec_type : AVMediaType

/-- One run of the program: the argument count, the outcome of each library
call made before the fill loop, the streams of the container and the packets
`av_read_frame` delivers. -/
structure MediaFile where
  argc : Nat
  avformat_alloc_context_ok : Bool
  avformat_open_input_ok : Bool
  avformat_find_stream_info_ok : Bool
  streams : List AVStream
  avcodec_alloc_context3_ok : Bool
  avcodec_parameters_to_context_ok : Bool
  avcodec_open2_ok : Bool
  av_frame_alloc_ok : Bool
  av_packet_alloc_ok : Bool
  packets : List AVPacket

/-- The stream loop of `main` (A5.c 181-212): `i` is the index of the head of
the list, the result is the final `video_stream_index`. -/
def find_video_stream : List AVStream → Int → Int → Int
  | [], _, video_stream_index => video_stream_index
  | s :: rest, i, video_stream_index =>
    if !s.decoder_found then find_video_stream rest (i + 1) video_stream_index
    else if s.codec_type = AVMediaType.video then
      if video_stream_index = -1 then find_video_stream rest (i + 1) i
      else find_video_stream rest (i + 1) video_stream_index
    else find_video_stream rest (i + 1) video_stream_index

/-- The part of `main` before the fill loop (A5.c 145-251): the value
`main` returns when a check fails, or the index of the video stream. -/
def startup (m : MediaFile) : Except Int Int :=
  if m.argc < 2 then .error (-1)
  else if !m.avformat_alloc_context_ok then .error (-1)
  else if !m.avformat_open_input_ok then .error (-1)
  else if !m.avformat_find_stream_info_ok then .error (-1)
  else
    let video_stream_index := find_video_stream m.streams 0 (-1)
    if video_stream_index = -1 then .error (-1)
    else if !m.avcodec_alloc_context3_ok then .error (-1)
    else if !m.avcodec_parameters_to_context_ok then .error (-1)
    else if !m.avcodec_open2_ok then .error (-1)
    else if !m.av_frame_alloc_ok then .error (-1)
    else if !m.av_packet_alloc_ok then .error (-1)
    else .ok video_stream_index

/-- Whether every store of the fill phase went to a slot of
`rgb_frame_array`. -/
def stores_in_array (st : FillState) : Bool :=
  st.stores.all fun index => decide (0 ≤ index ∧ index < (NUM_FRAMES : Int))

/-- How a run of `main` ends up. -/
inductive Run
  /-- The process ended with this status before `gtk_init`: `main` returned
  it, or `allocateFrame` called `exit` with it. -/
  | stopped (status : Int)
  /-- The window was created and shown, `refresh_screen` was registered with
  `g_timeout_add` at the given period and `gtk_main` runs over the given
  frame array, the cursor starting at `animate_position`; `main` returns
  `status` when the window is closed. -/
  | playing (rgb_frame_array : List (Option AVFrame)) (animate_position : Int)
      (timer_ms : Nat) (status : Int)
  /-- During the fill phase `save_rgb_frame` stored past the end of
  `rgb_frame_array`.  The store overwrites what lies behind the array (the
  static variables declared after it, the cursor `animate_position` among
  them), so the contents of the globals, and with them the rest of the run,
  are not defined. -/
  | overrun

/-- The function `main` (A5.c 142-307).  The window is created over the
frame array with the cursor at its initial value 0, provided the fill phase
kept its stores inside the array. -/
def main (m : MediaFile) : Run :=
  match startup m with
  | .error status => Run.stopped status
  | .ok video_stream_index =>
    match fill_loop video_stream_index m.packets FillState.init with
    | .error status => Run.stopped status
    | .ok st =>
      if stores_in_array st then Run.playing st.rgb_frame_array 0 SPEED_OF_VIDEO 0
      else Run.overrun

/-! ## Playback -/

/-- The function `update_position` (A5.c 492-501) on `animate_position`. -/
def update_position (animate_position : Int) : Int :=
  if animate_position = (NUM_FRAMES : Int) - 2 then 0
  else animate_position + 1

/-- The function `refresh_screen` (A5.c 509-516): one timer tick.  It calls
`update_position` and queues a redraw; the cursor is its only state. -/
def refresh_screen (animate_position : Int) : Int :=
  update_position animate_position

/-- Value of `animate_position` after `t` timer ticks, starting from its
initial value 0. -/
def animate_position_after (t : Nat) : Int :=
  refresh_screen^[t] 0

/-- One iteration of the inner loop of `on_draw_event`: the offset in `buf`
of the first of the three bytes read, the byte offset in the surface data of
the 32 bit word written, and the word (`none` when one of the three reads
falls outside the frame buffer, where C gives no value). -/
structure PixelCopy where
  src : Nat
  dst : Nat
  word : Option Nat
  deriving DecidableEq, Repr

/-- The expression `(r << 16) | (g << 8) | b` on `uint32_t`. -/
def pack_rgb (r g b : Nat) : Nat :=
  (((r <<< 16) % 2 ^ 32) ||| ((g <<< 8) % 2 ^ 32) ||| b) % 2 ^ 32

/-- Body of the inner loop of `on_draw_event` (A5.c 475-478) for row `y` and
pixel `x`; `current_row` is at byte offset `y * stride` of the surface. -/
def copy_pixel (frame : AVFrame) (stride y x : Nat) : PixelCopy :=
  let line_size := frame.linesize
  let buf := frame.data
  { src := y * line_size + x * 3
    dst := y * stride + 4 * x
    word :=
      match buf[y * line_size + x * 3 + 0]?, buf[y * line_size + x * 3 + 1]?,
          buf[y * line_size + x * 3 + 2]? with
      | some r, some g, some b => some (pack_rgb r.val g.val b.val)
      | _, _, _ => none }

/-- The two loops of `on_draw_event` (A5.c 471-481): every pixel copy, in
the order the program makes them. -/
def draw_rows (frame : AVFrame) (stride : Nat) : List PixelCopy :=
  (List.range WIN_HEIGHT).flatMap fun y =>
    (List.range (frame.linesize / 3)).map fun x => copy_pixel frame stride y x

/-- The function `on_draw_event` (A5.c 459-486) for a surface with the given
stride: the pixel copies it makes, or `none` when
`rgb_frame_array[animate_position]` is not a frame (the program then
dereferences an invalid pointer). -/
def on_draw_event (rgb_frame_array : List (Option AVFrame)) (animate_position : Int)
    (stride : Nat) : Option (List PixelCopy) :=
  match array_get rgb_frame_array animate_position with
  | none => none
  | some frame => some (draw_rows frame stride)

/-- Stride that `cairo_image_surface_get_stride` reports for the
`CAIRO_FORMAT_RGB24` surface of `WIN_WIDTH` pixels: four bytes per pixel. -/
def surface_stride : Nat := 4 * WIN_WIDTH

/-! ## Inputs used in the examples, and a measure used in statements -/

/-- A decoded frame of the given size whose converted bytes are all `c`. -/
def solid (width height : Nat) (c : Byte) : DecodedFrame :=
  { width := width, height := height, rgb := fun _ => c }

/-- An answer of `avcodec_receive_frame` that returns a frame, with both
allocations succeeding. -/
def got (f : DecodedFrame) : Received :=
  { response := 0, pFrame := f, av_frame_alloc_ok := true, av_image_alloc_ok := true }

/-- An answer of `avcodec_receive_frame` that returns no frame. -/
def no_frame (response : Int) : Received :=
  { response := response, pFrame := solid 0 0 0, av_frame_alloc_ok := true,
    av_image_alloc_ok := true }

/-- A packet of stream 0 that the decoder accepts and answers with the given
frames, then `AVERROR(EAGAIN)`. -/
def video_packet (frames : List DecodedFrame) : AVPacket :=
  { stream_index := 0, send_response := 0,
    received := frames.map got ++ [no_frame AVERROR_EAGAIN] }

/-- A packet of stream 0 that `avcodec_send_packet` rejects with
`AVERROR_INVALIDDATA`. -/
def bad_packet : AVPacket :=
  { stream_index := 0, send_response := -1094995529, received := [] }

/-- A run whose startup succeeds: one video stream with a decoder, and the
given packets. -/
def media (packets : List AVPacket) : MediaFile :=
  { argc := 2
    avformat_alloc_context_ok := true
    avformat_open_input_ok := true
    avformat_find_stream_info_ok := true
    streams := [{ decoder_found := true, codec_type := AVMediaType.video }]
    avcodec_alloc_context3_ok := true
    avcodec_parameters_to_context_ok := true
    avcodec_open2_ok := true
    av_frame_alloc_ok := true
    av_packet_alloc_ok := true
    packets := packets }

/-- A file of `n` video packets, each decoding to one frame of one pixel. -/
def clip (n : Nat) : List AVPacket :=
  List.replicate n (video_packet [solid 1 1 0])

/-- A file whose first video packet is rejected by the decoder and whose
second one decodes to a frame. -/
def clip_bad_first : List AVPacket :=
  [bad_packet, video_packet [solid 1 1 0]]

/-- A file of `NUM_FRAMES` video packets, the first decoding to two frames
and each of the other 99 to one. -/
def clip_two_in_one : List AVPacket :=
  video_packet [solid 1 1 0, solid 1 1 0] :: clip 99

/-- A file with a good packet, then a rejected one, then a good one. -/
def clip_bad_second : List AVPacket :=
  [video_packet [solid 1 1 0], bad_packet, video_packet [solid 1 1 0]]

/-- The frame stored for a decoded frame of one pixel with all bytes 0. -/
def pixel_frame : AVFrame :=
  { width := 1, height := 1, linesize := 3, data := [0, 0, 0] }

/-- The state of the fill loop after `n` packets of `clip`. -/
def after_packets (n : Nat) : FillState :=
  { frame_number := n
    rgb_frame_array :=
      List.replicate n (some pixel_frame) ++ List.replicate (NUM_FRAMES - n) none
    response := 0
    num_of_packets_to_process := (NUM_FRAMES : Int) - n
    stores := (List.range n).map fun k : Nat => (k : Int) }

/-- The state in which the fill loop leaves `clip_two_in_one`: 101 frames
counted, 101 stores, every slot of the array occupied. -/
def after_two_in_one : FillState :=
  { frame_number := 101
    rgb_frame_array := List.replicate NUM_FRAMES (some pixel_frame)
    response := 0
    num_of_packets_to_process := 0
    stores := (List.range 101).map fun k : Nat => (k : Int) }

/-- A frame header without a pixel buffer, as `allocateFrame` returns it when
`av_image_alloc` fails. -/
def bufferless_frame : AVFrame :=
  { width := 320, height := 250, linesize := 0, data := [] }

/-- A video packet whose single frame is converted while `av_image_alloc`
fails (`av_frame_alloc` succeeds). -/
def starved_packet : AVPacket :=
  { stream_index := 0, send_response := 0,
    received := [{ response := 0, pFrame := solid 320 250 0, av_frame_alloc_ok := true,
                   av_image_alloc_ok := false }] }

/-- The frame `save_rgb_frame` stores for a decoded frame of the given size
with all converted bytes 0, when both allocations succeed. -/
def stored_frame (width height : Nat) : AVFrame :=
  sws_scale (solid width height 0)
    { width := width, height := height, linesize := 3 * width,
      data := List.replicate (3 * width * height) 0 }

/-- Number of frames `decode_packet` receives for a packet: none when the
packet is rejected, else the answers with a non-negative return value that
come before the first negative one. -/
def decodable_frames (p : AVPacket) : Nat :=
  if p.send_response < 0 then 0
  else (p.received.takeWhile fun r => decide (0 ≤ r.response)).length

/-- The shape every state of the fill phase has: the decoder has counted
`frame_number` frames, they were stored at the indices `0, 1, ...` in that
order, and a slot of the array is occupied exactly when its index is below
`frame_number`. -/
def FillInv (st : FillState) : Prop :=
  0 ≤ st.frame_number ∧
  st.rgb_frame_array.length = NUM_FRAMES ∧
  st.stores = (List.range st.frame_number.toNat).map (fun k : Nat => (k : Int)) ∧
  ∀ i : Nat, i < NUM_FRAMES →
    ((array_get st.rgb_frame_array i).isSome ↔ (i : Int) < st.frame_number)

/-! ## Lemmas -/

/-- One tick keeps the cursor between 0 and `NUM_FRAMES - 2`. -/
theorem update_position_range (p : Int) (h0 : 0 ≤ p) (h1 : p ≤ (NUM_FRAMES : Int) - 2) :
    0 ≤ update_position p ∧ update_position p ≤ (NUM_FRAMES : Int) - 2 := by
  unfold update_position
  split <;> omega

/-- The cursor after `t + 1` ticks is one `update_position` after the cursor
after `t` ticks. -/
theorem animate_position_after_succ (t : Nat) :
    animate_position_after (t + 1) = update_position (animate_position_after t) := by
  unfold animate_position_after
  rw [Function.iterate_succ_apply']
  rfl

/-- The cursor never leaves `0 .. NUM_FRAMES - 2`. -/
theorem animate_position_after_range (t : Nat) :
    0 ≤ animate_position_after t ∧ animate_position_after t ≤ (NUM_FRAMES : Int) - 2 := by
  induction t with
  | zero => simp [animate_position_after, NUM_FRAMES]
  | succ n ih =>
    rw [animate_position_after_succ]
    exact update_position_range _ ih.1 ih.2

/-- The cursor after `t` ticks is `t mod (NUM_FRAMES - 1)`. -/
theorem animate_position_after_eq (t : Nat) :
    animate_position_after t = ((t % (NUM_FRAMES - 1) : Nat) : Int) := by
  induction t with
  | zero => simp [animate_position_after]
  | succ n ih =>
    rw [animate_position_after_succ, ih]
    unfold update_position
    simp only [NUM_FRAMES]
    split <;> omega

/-- Reading the array after a write: the written frame at the written index
(when that index is inside the array), the old content elsewhere. -/
theorem array_get_array_set (arr : List (Option AVFrame)) (k i : Int) (f : AVFrame) :
    array_get (array_set arr k f) i =
      if i = k ∧ 0 ≤ k ∧ k < arr.length then some f else array_get arr i := by
  unfold array_get array_set
  by_cases hk : 0 ≤ k ∧ k < arr.length
  · simp only [hk, and_self, if_true, List.length_set, and_true]
    by_cases hik : i = k
    · subst hik
      have : i.toNat < arr.length := by omega
      simp [hk, List.getD_eq_getElem?_getD, List.getElem?_set, this]
    · simp only [hik, if_false]
      by_cases hi : 0 ≤ i ∧ i < arr.length
      · have hne : k.toNat ≠ i.toNat := by omega
        simp [hi, List.getD_eq_getElem?_getD, List.getElem?_set, hne]
      · simp [hi]
  · simp only [hk, if_false]
    have : ¬ (i = k ∧ 0 ≤ k ∧ k < arr.length) := fun h => hk h.2
    simp [this]

/-- A write does not change the number of slots. -/
theorem array_set_length (arr : List (Option AVFrame)) (k : Int) (f : AVFrame) :
    (array_set arr k f).length = arr.length := by
  unfold array_set
  split <;> simp

/-- The initial state has the shape `FillInv`. -/
theorem FillInv_init : FillInv FillState.init := by
  refine ⟨by simp [FillState.init], by simp [FillState.init], by simp [FillState.init], ?_⟩
  intro i hi
  simp [FillState.init, array_get, hi, List.getD_eq_getElem?_getD]

/-- One received frame: the counter goes up by one and the frame lands in the
slot the counter had before, which was empty. -/
theorem save_rgb_frame_step (pFrame : DecodedFrame) (a b : Bool) (st st2 : FillState)
    (hinv : FillInv st)
    (h : save_rgb_frame pFrame (st.frame_number + 1) a b
      { st with frame_number := st.frame_number + 1 } = .ok st2) :
    FillInv st2 ∧ st2.frame_number = st.frame_number + 1 ∧
    st2.response = st.response ∧
    st2.num_of_packets_to_process = st.num_of_packets_to_process ∧
    (∀ (i : Int) (f : AVFrame), array_get st.rgb_frame_array i = some f →
      array_get st2.rgb_frame_array i = some f) := by
  obtain ⟨h0, hlen, hst, hocc⟩ := hinv
  unfold save_rgb_frame at h
  cases hal : allocateFrame pFrame.width pFrame.height a b with
  | error c => simp [hal] at h
  | ok fr =>
    simp only [hal] at h
    injection h with h
    subst h
    refine ⟨⟨by simp only; omega, by simp [array_set_length, hlen], ?_, ?_⟩, rfl, rfl, rfl, ?_⟩
      <;> simp only [add_sub_cancel_right]
    · simp only [hst]
      have : (st.frame_number + 1).toNat = st.frame_number.toNat + 1 := by omega
      rw [this, List.range_succ, List.map_append]
      simp
      omega
    · intro i hi
      rw [array_get_array_set]
      by_cases hik : (i : Int) = st.frame_number
      · have : st.frame_number < (st.rgb_frame_array.length : Int) := by
          rw [hlen]; omega
        simp [hik, h0, this]
      · have hne : ¬ ((i : Int) = st.frame_number ∧ 0 ≤ st.frame_number ∧
            st.frame_number < (st.rgb_frame_array.length : Int)) := fun h => hik h.1
        simp only [hne, if_false]
        rw [hocc i hi]
        omega
    · intro i f hi
      rw [array_get_array_set]
      by_cases hik : i = st.frame_number
      · exfalso
        subst hik
        by_cases hlt : st.frame_number < (NUM_FRAMES : Int)
        · have := hocc st.frame_number.toNat (by omega)
          have hc : ((st.frame_number.toNat : Nat) : Int) = st.frame_number := by omega
          rw [hc, hi] at this
          simp at this
        · unfold array_get at hi
          rw [hlen] at hi
          simp [hlt] at hi
      · have hne : ¬ (i = st.frame_number ∧ 0 ≤ st.frame_number ∧
            st.frame_number < (st.rgb_frame_array.length : Int)) := fun h => hik h.1
        simp only [hne, if_false]
        exact hi

/-- The receive loop: it stores as many frames as there are non-negative
answers before the first negative one, each in a fresh slot. -/
theorem receive_frames_spec (rs : List Received) :
    ∀ (st st2 : FillState) (r : Int), FillInv st → receive_frames rs st = .ok (r, st2) →
    FillInv st2 ∧
    st2.frame_number =
      st.frame_number + ((rs.takeWhile fun x => decide (0 ≤ x.response)).length : Nat) ∧
    st2.response = st.response ∧
    st2.num_of_packets_to_process = st.num_of_packets_to_process ∧
    (∀ (i : Int) (f : AVFrame), array_get st.rgb_frame_array i = some f →
      array_get st2.rgb_frame_array i = some f) := by
  induction rs with
  | nil =>
    intro st st2 r hinv h
    simp only [receive_frames, Except.ok.injEq, Prod.mk.injEq] at h
    obtain ⟨-, rfl⟩ := h
    simp [hinv]
  | cons x rest ih =>
    intro st st2 r hinv h
    unfold receive_frames at h
    by_cases hstop : x.response = AVERROR_EAGAIN ∨ x.response = AVERROR_EOF
    · simp only [hstop, if_true, Except.ok.injEq, Prod.mk.injEq] at h
      obtain ⟨-, rfl⟩ := h
      have hneg : ¬ (0 ≤ x.response) := by
        rcases hstop with h1 | h1 <;> rw [h1] <;> simp [AVERROR_EAGAIN, AVERROR_EOF]
      simp [hinv, List.takeWhile_cons, hneg]
    · simp only [hstop, if_false] at h
      by_cases hneg : x.response < 0
      · simp only [hneg, if_true, Except.ok.injEq, Prod.mk.injEq] at h
        obtain ⟨-, rfl⟩ := h
        have hn : ¬ (0 ≤ x.response) := by omega
        simp [hinv, List.takeWhile_cons, hn]
      · simp only [hneg, if_false] at h
        cases hs : save_rgb_frame x.pFrame (st.frame_number + 1) x.av_frame_alloc_ok
            x.av_image_alloc_ok { st with frame_number := st.frame_number + 1 } with
        | error c => simp [hs] at h
        | ok s1 =>
          simp only [hs] at h
          obtain ⟨i1, f1, r1, n1, k1⟩ := save_rgb_frame_step _ _ _ _ _ hinv hs
          obtain ⟨i2, f2, r2, n2, k2⟩ := ih s1 st2 r i1 h
          have hp : 0 ≤ x.response := by omega
          refine ⟨i2, ?_, by rw [r2, r1], by rw [n2, n1], fun i f hi => k2 i f (k1 i f hi)⟩
          rw [f2, f1]
          simp only [List.takeWhile_cons, hp, decide_True, if_true, List.length_cons]
          push_cast
          omega

/-- The function `decode_packet`: it stores `decodable_frames` frames, each
in a fresh slot, and leaves the locals of `main` alone. -/
theorem decode_packet_spec (p : AVPacket) (st st2 : FillState) (r : Int)
    (hinv : FillInv st) (h : decode_packet p st = .ok (r, st2)) :
    FillInv st2 ∧
    st2.frame_number = st.frame_number + (decodable_frames p : Nat) ∧
    st2.response = st.response ∧
    st2.num_of_packets_to_process = st.num_of_packets_to_process ∧
    (∀ (i : Int) (f : AVFrame), array_get st.rgb_frame_array i = some f →
      array_get st2.rgb_frame_array i = some f) := by
  unfold decode_packet at h
  unfold decodable_frames
  by_cases hs : p.send_response < 0
  · simp only [hs, if_true, Except.ok.injEq, Prod.mk.injEq] at h
    obtain ⟨-, rfl⟩ := h
    simp [hinv, hs]
  · simp only [hs, if_false] at h ⊢
    exact receive_frames_spec _ _ _ _ hinv h

/-- The fill loop keeps the invariant, never lowers the frame count and never
touches an occupied slot. -/
theorem fill_loop_spec (v : Int) (ps : List AVPacket) :
    ∀ (st st2 : FillState), FillInv st → fill_loop v ps st = .ok st2 →
    FillInv st2 ∧ st.frame_number ≤ st2.frame_number ∧
    (∀ (i : Int) (f : AVFrame), array_get st.rgb_frame_array i = some f →
      array_get st2.rgb_frame_array i = some f) := by
  induction ps with
  | nil =>
    intro st st2 hinv h
    simp only [fill_loop, Except.ok.injEq] at h
    subst h
    exact ⟨hinv, le_refl _, fun _ _ hi => hi⟩
  | cons p rest ih =>
    intro st st2 hinv h
    unfold fill_loop at h
    by_cases hv : p.stream_index = v
    · simp only [hv, if_true] at h
      cases hd : decode_packet p st with
      | error c => simp [hd] at h
      | ok res =>
        obtain ⟨r, s1⟩ := res
        simp only [hd] at h
        obtain ⟨i1, f1, -, -, k1⟩ := decode_packet_spec p st s1 r hinv hd
        have i1r : ∀ x : Int, FillInv { s1 with response := x } := fun x => i1
        by_cases hr : r < 0
        · simp only [hr, if_true, Except.ok.injEq] at h
          subst h
          exact ⟨i1, by simp only; omega, k1⟩
        · simp only [hr, if_false] at h
          by_cases hn : s1.num_of_packets_to_process - 1 ≤ 0
          · simp only [hn, if_true, Except.ok.injEq] at h
            subst h
            exact ⟨i1, by simp only; omega, k1⟩
          · simp only [hn, if_false] at h
            obtain ⟨i2, f2, k2⟩ := ih _ st2 (by exact i1) h
            exact ⟨i2, by simp only at f2; omega, fun i f hi => k2 i f (k1 i f hi)⟩
    · simp only [hv, if_false] at h
      exact ih st st2 hinv h

/-- When no video packet decodes to more than one frame, the budget of
`NUM_FRAMES` packets also bounds the frames. -/
theorem fill_loop_bound (v : Int) (ps : List AVPacket) :
    ∀ (st st2 : FillState), FillInv st → 0 < st.num_of_packets_to_process →
    st.frame_number + st.num_of_packets_to_process ≤ (NUM_FRAMES : Int) →
    (∀ p ∈ ps, p.stream_index = v → decodable_frames p ≤ 1) →
    fill_loop v ps st = .ok st2 → st2.frame_number ≤ (NUM_FRAMES : Int) := by
  induction ps with
  | nil =>
    intro st st2 _ hpos hle _ h
    simp only [fill_loop, Except.ok.injEq] at h
    subst h
    omega
  | cons p rest ih =>
    intro st st2 hinv hpos hle hone h
    unfold fill_loop at h
    have hrest : ∀ q ∈ rest, q.stream_index = v → decodable_frames q ≤ 1 :=
      fun q hq => hone q (List.mem_cons_of_mem _ hq)
    by_cases hv : p.stream_index = v
    · simp only [hv, if_true] at h
      have h1 : decodable_frames p ≤ 1 := hone p (List.mem_cons_self _ _) hv
      cases hd : decode_packet p st with
      | error c => simp [hd] at h
      | ok res =>
        obtain ⟨r, s1⟩ := res
        simp only [hd] at h
        obtain ⟨i1, f1, -, n1, -⟩ := decode_packet_spec p st s1 r hinv hd
        by_cases hr : r < 0
        · simp only [hr, if_true, Except.ok.injEq] at h
          subst h
          simp only
          omega
        · simp only [hr, if_false] at h
          by_cases hn : s1.num_of_packets_to_process - 1 ≤ 0
          · simp only [hn, if_true, Except.ok.injEq] at h
            subst h
            simp only
            omega
          · simp only [hn, if_false] at h
            refine ih _ st2 (by exact i1) (by simp only; omega) (by simp only; omega) hrest h
    · simp only [hv, if_false] at h
      exact ih st st2 hinv hpos hle hrest h

/-- A run of the loop that ends with `response ≥ 0` and budget left has
consumed all its packets, so it continues with whatever follows. -/
theorem fill_loop_append (v : Int) (pre rest : List AVPacket) :
    ∀ (st s : FillState), fill_loop v pre st = .ok s → 0 ≤ s.response →
    0 < s.num_of_packets_to_process →
    fill_loop v (pre ++ rest) st = fill_loop v rest s := by
  induction pre with
  | nil =>
    intro st s h _ _
    simp only [fill_loop, Except.ok.injEq] at h
    subst h
    rfl
  | cons p ps ih =>
    intro st s h hresp hnum
    rw [List.cons_append]
    simp only [fill_loop] at h ⊢
    by_cases hv : p.stream_index = v
    · simp only [hv, if_true] at h ⊢
      cases hd : decode_packet p st with
      | error c => simp [hd] at h
      | ok res =>
        obtain ⟨r, s1⟩ := res
        simp only [hd] at h ⊢
        by_cases hr : r < 0
        · simp only [hr, if_true, Except.ok.injEq] at h
          subst h
          simp only at hresp
          omega
        · simp only [hr, if_false] at h ⊢
          by_cases hn : s1.num_of_packets_to_process - 1 ≤ 0
          · simp only [hn, if_true, Except.ok.injEq] at h
            subst h
            simp only at hnum
            omega
          · simp only [hn, if_false] at h ⊢
            exact ih _ s h hresp hnum
    · simp only [hv, if_false] at h ⊢
      exact ih st s h hresp hnum

/-- The receive loop returns normally when no `av_frame_alloc` fails. -/
theorem receive_frames_ends (rs : List Received)
    (hok : ∀ x ∈ rs, x.av_frame_alloc_ok = true) :
    ∀ st : FillState, ∃ res, receive_frames rs st = .ok res := by
  induction rs with
  | nil => intro st; exact ⟨_, rfl⟩
  | cons x rest ih =>
    intro st
    have hx : x.av_frame_alloc_ok = true := hok x (List.mem_cons_self _ _)
    have hrest : ∀ z ∈ rest, z.av_frame_alloc_ok = true :=
      fun z hz => hok z (List.mem_cons_of_mem _ hz)
    unfold receive_frames
    by_cases hstop : x.response = AVERROR_EAGAIN ∨ x.response = AVERROR_EOF
    · simp only [hstop, if_true]; exact ⟨_, rfl⟩
    · by_cases hneg : x.response < 0
      · simp only [hstop, if_false, hneg, if_true]; exact ⟨_, rfl⟩
      · simp only [hstop, if_false, hneg, save_rgb_frame, allocateFrame, av_frame_alloc, hx,
          if_true]
        exact ih hrest _

/-- The fill loop ends (the process is not terminated inside it) when no
`av_frame_alloc` fails. -/
theorem fill_loop_ends (v : Int) (ps : List AVPacket)
    (hok : ∀ p ∈ ps, ∀ x ∈ p.received, x.av_frame_alloc_ok = true) :
    ∀ st : FillState, ∃ st2, fill_loop v ps st = .ok st2 := by
  induction ps with
  | nil => intro st; exact ⟨_, rfl⟩
  | cons p rest ih =>
    intro st
    have hrest : ∀ q ∈ rest, ∀ x ∈ q.received, x.av_frame_alloc_ok = true :=
      fun q hq => hok q (List.mem_cons_of_mem _ hq)
    unfold fill_loop
    by_cases hv : p.stream_index = v
    · simp only [hv, if_true]
      have hd : ∃ res, decode_packet p st = .ok res := by
        unfold decode_packet
        by_cases hs : p.send_response < 0
        · simp only [hs, if_true]; exact ⟨_, rfl⟩
        · simp only [hs, if_false]
          exact receive_frames_ends _ (hok p (List.mem_cons_self _ _)) st
      obtain ⟨⟨r, s1⟩, hd⟩ := hd
      simp only [hd]
      by_cases hr : r < 0
      · simp only [hr, if_true]; exact ⟨_, rfl⟩
      · by_cases hn : s1.num_of_packets_to_process - 1 ≤ 0
        · simp only [hr, if_false, hn, if_true]; exact ⟨_, rfl⟩
        · simp only [hr, if_false, hn]
          exact ih hrest _
    · simp only [hv, if_false]
      exact ih hrest st

/-- A fill that stored at most `NUM_FRAMES` frames kept every store inside
the array. -/
theorem stores_in_array_of_le (st : FillState) (hinv : FillInv st)
    (hN : N_filled st ≤ NUM_FRAMES) : stores_in_array st = true := by
  obtain ⟨h0, -, hst, -⟩ := hinv
  have hlen : N_filled st = st.frame_number.toNat := by
    unfold N_filled
    rw [hst]
    simp
  unfold stores_in_array
  rw [List.all_eq_true]
  intro index hmem
  rw [hst] at hmem
  simp only [List.mem_map, List.mem_range] at hmem
  obtain ⟨k, hk, rfl⟩ := hmem
  rw [decide_eq_true_eq]
  omega

/-- Once startup and the fill loop are through with every store inside the
array, `main` always goes on to the window and the timer and returns 0. -/
theorem main_of_fill (m : MediaFile) (v : Int) (st : FillState)
    (hstart : startup m = .ok v) (hfill : fill_loop v m.packets FillState.init = .ok st)
    (hin : stores_in_array st = true) :
    main m = Run.playing st.rgb_frame_array 0 SPEED_OF_VIDEO 0 := by
  unfold main
  simp only [hstart, hfill, hin, if_true]

/-- A fill that stores past the array leaves the run undefined: the file of
100 packets with one two-frame packet ends in `Run.overrun`. -/
theorem main_overrun : main (media clip_two_in_one) = Run.overrun := rfl

/-- A failed `av_frame_alloc` ends the process with status 1. -/
theorem allocateFrame_no_header (width height : Nat) (image_ok : Bool) :
    allocateFrame width height false image_ok = .error 1 := by
  simp [allocateFrame, av_frame_alloc]

/-- The pixel copies of a redraw are exactly those of the rows below
`WIN_HEIGHT` and the pixels below `linesize / 3`. -/
theorem mem_draw_rows (frame : AVFrame) (stride : Nat) (c : PixelCopy) :
    c ∈ draw_rows frame stride ↔
      ∃ y, y < WIN_HEIGHT ∧ ∃ x, x < frame.linesize / 3 ∧ c = copy_pixel frame stride y x := by
  unfold draw_rows
  simp only [List.mem_flatMap, List.mem_map, List.mem_range]
  constructor
  · rintro ⟨y, hy, x, hx, rfl⟩
    exact ⟨y, hy, x, hx, rfl⟩
  · rintro ⟨y, hy, x, hx, rfl⟩
    exact ⟨y, hy, x, hx, rfl⟩

/-- On bytes the packed word is `r * 2^16 + g * 2^8 + b`. -/
theorem pack_rgb_eq (r g b : Nat) (hr : r < 256) (hg : g < 256) (hb : b < 256) :
    pack_rgb r g b = r * 65536 + g * 256 + b := by
  unfold pack_rgb
  have e1 : (r <<< 16) % 2 ^ 32 = 2 ^ 16 * r := by
    rw [Nat.shiftLeft_eq, Nat.mod_eq_of_lt (by omega)]; ring
  have e2 : (g <<< 8) % 2 ^ 32 = 2 ^ 8 * g := by
    rw [Nat.shiftLeft_eq, Nat.mod_eq_of_lt (by omega)]; ring
  have hgb : 2 ^ 8 * g + b < 2 ^ 16 := by omega
  have h2 : 2 ^ 8 * g ||| b = 2 ^ 8 * g + b := (Nat.mul_add_lt_is_or (by omega) g).symm
  rw [e1, e2, Nat.lor_assoc, h2, ← Nat.mul_add_lt_is_or hgb r, Nat.mod_eq_of_lt (by omega)]
  omega

/-- With both allocations succeeding `allocateFrame` returns a frame of line
size `3 * width` with a buffer of `3 * width * height` bytes. -/
theorem allocateFrame_ok (width height : Nat) :
    allocateFrame width height true true =
      .ok { width := width, height := height, linesize := 3 * width,
            data := List.replicate (3 * width * height) 0 } := by
  simp [allocateFrame, av_frame_alloc, av_image_alloc]

/-- Line size of a stored frame. -/
theorem stored_frame_linesize (width height : Nat) :
    (stored_frame width height).linesize = 3 * width := rfl

/-- Height of a stored frame. -/
theorem stored_frame_height (width height : Nat) :
    (stored_frame width height).height = height := rfl

/-- Size of the pixel buffer of a stored frame: `linesize * height`. -/
theorem stored_frame_data_length (width height : Nat) :
    (stored_frame width height).data.length = 3 * width * height := by
  simp [stored_frame, sws_scale]

/-- A pixel copy that starts reading at or after the end of the buffer reads
no value. -/
theorem copy_pixel_word_none (frame : AVFrame) (stride y x : Nat)
    (h : frame.data.length ≤ y * frame.linesize + x * 3) :
    (copy_pixel frame stride y x).word = none := by
  have h0 : frame.data[y * frame.linesize + x * 3 + 0]? = none :=
    List.getElem?_eq_none (by omega)
  simp only [copy_pixel, h0]

/-- Whenever the fill phase stored fewer than `NUM_FRAMES - 1` frames, the
cursor reaches the first empty slot after `N_filled` ticks. -/
theorem cursor_reaches_first_empty_slot (v : Int) (packets : List AVPacket) (st : FillState)
    (h : fill_loop v packets FillState.init = .ok st) (hN : N_filled st < NUM_FRAMES - 1) :
    animate_position_after (N_filled st) = (N_filled st : Int) ∧
    array_get st.rgb_frame_array (animate_position_after (N_filled st)) = none := by
  obtain ⟨⟨h0, -, hst, hocc⟩, -, -⟩ := fill_loop_spec v packets _ st FillInv_init h
  have hlen : N_filled st = st.frame_number.toNat := by
    unfold N_filled
    rw [hst]
    simp
  have hpos : animate_position_after (N_filled st) = (N_filled st : Int) := by
    rw [animate_position_after_eq, Nat.mod_eq_of_lt hN]
  refine ⟨hpos, ?_⟩
  rw [hpos]
  simp only [NUM_FRAMES] at hN
  have := hocc (N_filled st) (by simp only [NUM_FRAMES]; omega)
  cases hg : array_get st.rgb_frame_array (N_filled st : Int) with
  | none => rfl
  | some f =>
    rw [hg] at this
    simp only [Option.isSome_some, true_iff] at this
    omega

/-- A frame that is at most `WIN_WIDTH` pixels wide and at least `WIN_HEIGHT`
rows high is copied within bounds: every read falls inside its buffer and
every write for a row falls inside that row of the surface. -/
theorem draw_rows_in_bounds (frame : AVFrame) (stride : Nat) (c : PixelCopy)
    (hbuf : frame.linesize * frame.height ≤ frame.data.length)
    (hh : WIN_HEIGHT ≤ frame.height) (hw : frame.linesize / 3 ≤ WIN_WIDTH)
    (hs : 4 * WIN_WIDTH ≤ stride) (hc : c ∈ draw_rows frame stride) :
    c.src + 2 < frame.data.length ∧
    ∃ y, y < WIN_HEIGHT ∧ y * stride ≤ c.dst ∧ c.dst + 4 ≤ y * stride + stride := by
  rw [mem_draw_rows] at hc
  obtain ⟨y, hy, x, hx, rfl⟩ := hc
  constructor
  · simp only [copy_pixel]
    have h1 : (y + 1) * frame.linesize ≤ frame.height * frame.linesize :=
      Nat.mul_le_mul_right _ (by omega)
    have h2 : frame.height * frame.linesize = frame.linesize * frame.height := Nat.mul_comm _ _
    have h3 : (y + 1) * frame.linesize = y * frame.linesize + frame.linesize := by ring
    omega
  · refine ⟨y, hy, ?_, ?_⟩ <;> simp only [copy_pixel] <;> omega

/-- With both allocations succeeding, `save_rgb_frame` puts `stored_frame`
into the array for a decoded frame with all converted bytes 0. -/
theorem save_rgb_frame_stored_frame (width height : Nat) (fnumber : Int) (st : FillState) :
    save_rgb_frame (solid width height 0) fnumber true true st =
      .ok { st with
        rgb_frame_array :=
          array_set st.rgb_frame_array (fnumber - 1) (stored_frame width height)
        stores := st.stores ++ [fnumber - 1] } := by
  simp only [save_rgb_frame, solid, allocateFrame_ok, stored_frame]

/-! ## The claims -/

/-- C1: with `N_filled` stored frames the cursor after `t` ticks should be
`t mod N_filled` (the spec's four-frame scenario: 0,1,2,3,0,1,2,3,...).  The
program at a file of four frames: four frames are stored, and the cursor
walks 0,1,2,3,4,5,...; after four ticks it is 4, not `4 mod 4 = 0`. -/
theorem C1_cursor_ignores_filled_count :
    fill_loop 0 (clip 4) FillState.init = .ok (after_packets 4) ∧
    N_filled (after_packets 4) = 4 ∧
    (List.range 8).map animate_position_after = [0, 1, 2, 3, 4, 5, 6, 7] ∧
    animate_position_after 4 ≠ ((4 % N_filled (after_packets 4) : Nat) : Int) :=
  ⟨rfl, by decide, by decide, by decide⟩

/-- C2: the cursor should only ever address a slot filled during the fill
phase.  The program at a file of ten frames: slots 0..9 are filled, after
ten ticks `animate_position` is 10, slot 10 is empty and `on_draw_event` has
no frame to read. -/
theorem C2_cursor_reaches_empty_slot :
    fill_loop 0 (clip 10) FillState.init = .ok (after_packets 10) ∧
    N_filled (after_packets 10) = 10 ∧
    animate_position_after 10 = 10 ∧
    array_get (after_packets 10).rgb_frame_array (animate_position_after 10) = none ∧
    on_draw_event (after_packets 10).rgb_frame_array (animate_position_after 10)
      surface_stride = none :=
  ⟨rfl, by decide, by decide, by decide, by decide⟩

/-- C3 as stated fails on the program in two ways.  A file whose first video
packet is rejected and whose second one decodes to a frame contains a
decodable frame, yet the loop stops at the first packet and stores nothing.
A file of `NUM_FRAMES` video packets of which one decodes to two frames stays
within the packet budget, yet 101 frames are stored, the last one at index
`NUM_FRAMES`. -/
theorem C3_fill_count_out_of_bounds :
    (fill_loop 0 clip_bad_first FillState.init =
        .ok { FillState.init with response := -1094995529 } ∧
      (∃ p ∈ clip_bad_first, p.stream_index = 0 ∧ 1 ≤ decodable_frames p) ∧
      N_filled { FillState.init with response := -1094995529 } = 0) ∧
    (fill_loop 0 clip_two_in_one FillState.init = .ok after_two_in_one ∧
      (∃ p ∈ clip_two_in_one, p.stream_index = 0 ∧ 1 ≤ decodable_frames p) ∧
      N_filled after_two_in_one = NUM_FRAMES + 1 ∧
      (NUM_FRAMES : Int) ∈ after_two_in_one.stores) :=
  ⟨⟨rfl, ⟨video_packet [solid 1 1 0], by simp [clip_bad_first], by decide, by decide⟩,
      by decide⟩,
    ⟨rfl, ⟨video_packet [solid 1 1 0, solid 1 1 0], by simp [clip_two_in_one],
      by decide, by decide⟩, by decide, by decide⟩⟩

/-- C3, amended: when the fill loop ends, (1) if every video packet of the
input decodes to at most one frame, then `N_filled ≤ NUM_FRAMES` and every
store made by `save_rgb_frame` has an index in `0 .. NUM_FRAMES - 1`; (2) if
the loop reaches a video packet that decodes to at least one frame (it ran
through the packets before it without a decode error and with packet budget
left), then `1 ≤ N_filled`. -/
theorem C3_fill_count_bounds (v : Int) (packets : List AVPacket) (st : FillState)
    (h : fill_loop v packets FillState.init = .ok st) :
    ((∀ p ∈ packets, p.stream_index = v → decodable_frames p ≤ 1) →
      N_filled st ≤ NUM_FRAMES ∧
      ∀ index ∈ st.stores, 0 ≤ index ∧ index < (NUM_FRAMES : Int)) ∧
    (∀ (pre post : List AVPacket) (p : AVPacket) (s : FillState),
      packets = pre ++ p :: post → fill_loop v pre FillState.init = .ok s →
      0 ≤ s.response → 0 < s.num_of_packets_to_process →
      p.stream_index = v → 1 ≤ decodable_frames p → 1 ≤ N_filled st) := by
  obtain ⟨⟨h0, -, hst, -⟩, -, -⟩ := fill_loop_spec v packets _ st FillInv_init h
  have hN : N_filled st = st.frame_number.toNat := by
    unfold N_filled
    rw [hst]
    simp
  constructor
  · intro hone
    have hb := fill_loop_bound v packets _ st FillInv_init
      (by simp [FillState.init, NUM_FRAMES]) (by simp [FillState.init]) hone h
    refine ⟨by rw [hN]; omega, ?_⟩
    intro index hmem
    rw [hst] at hmem
    simp only [List.mem_map, List.mem_range] at hmem
    obtain ⟨k, hk, rfl⟩ := hmem
    omega
  · intro pre post p s hsplit hpre hresp hnum hv hframe
    subst hsplit
    rw [fill_loop_append v pre (p :: post) _ s hpre hresp hnum] at h
    obtain ⟨is, -, -⟩ := fill_loop_spec v pre _ s FillInv_init hpre
    simp only [fill_loop, hv, if_true] at h
    cases hd : decode_packet p s with
    | error c => simp [hd] at h
    | ok res =>
      obtain ⟨r, s1⟩ := res
      simp only [hd] at h
      obtain ⟨i1, f1, -, -, -⟩ := decode_packet_spec p s s1 r is hd
      have hs0 := is.1
      have hge : s1.frame_number ≤ st.frame_number := by
        by_cases hr : r < 0
        · simp only [hr, if_true, Except.ok.injEq] at h
          subst h
          exact le_refl _
        · simp only [hr, if_false] at h
          by_cases hn : s1.num_of_packets_to_process - 1 ≤ 0
          · simp only [hn, if_true, Except.ok.injEq] at h
            subst h
            exact le_refl _
          · simp only [hn, if_false] at h
            have := (fill_loop_spec v post _ st (by exact i1) h).2.1
            simpa using this
      rw [hN]
      omega

/-- C3, amended, at a file of four one-frame packets: the loop ends, no
packet decodes to more than one frame, the loop reaches the second packet
(after the first one `response = 0` and 99 packets are left), and four
frames are stored. -/
theorem C3_fill_count_bounds_witness :
    fill_loop 0 (clip 4) FillState.init = .ok (after_packets 4) ∧
    (∀ p ∈ clip 4, p.stream_index = 0 → decodable_frames p ≤ 1) ∧
    fill_loop 0 (clip 1) FillState.init = .ok (after_packets 1) ∧
    (N_filled (after_packets 4) ≤ NUM_FRAMES ∧
      ∀ index ∈ (after_packets 4).stores, 0 ≤ index ∧ index < (NUM_FRAMES : Int)) ∧
    1 ≤ N_filled (after_packets 4) :=
  ⟨rfl, by decide, rfl,
    (C3_fill_count_bounds 0 (clip 4) (after_packets 4) rfl).1 (by decide),
    (C3_fill_count_bounds 0 (clip 4) (after_packets 4) rfl).2 (clip 1) (clip 2)
      (video_packet [solid 1 1 0]) (after_packets 1) rfl rfl (by decide) (by decide)
      rfl (by decide)⟩

/-- C4: the playback cursor stays inside the frame array: starting from
`animate_position = 0`, after any number of timer ticks
`0 ≤ animate_position < NUM_FRAMES`. -/
theorem C4_cursor_within_capacity (t : Nat) :
    0 ≤ animate_position_after t ∧ animate_position_after t < (NUM_FRAMES : Int) := by
  have h := animate_position_after_range t
  constructor
  · exact h.1
  · have := h.2
    simp only [NUM_FRAMES] at this ⊢
    omega

/-- C5: after a fill phase that stored `N_filled ≤ NUM_FRAMES` frames, the
stores were made at the indices `0, 1, ..., N_filled - 1` in this order (frame
number `k` at index `k - 1`), slot `i` is occupied for every `i < N_filled`
and empty for every `N_filled ≤ i < NUM_FRAMES`, and no index was written
twice. -/
theorem C5_slots_after_fill (v : Int) (packets : List AVPacket) (st : FillState)
    (h : fill_loop v packets FillState.init = .ok st) (hN : N_filled st ≤ NUM_FRAMES) :
    st.stores = (List.range (N_filled st)).map (fun k : Nat => (k : Int)) ∧
    (∀ i : Nat, i < N_filled st → (array_get st.rgb_frame_array i).isSome) ∧
    (∀ i : Nat, N_filled st ≤ i → i < NUM_FRAMES → array_get st.rgb_frame_array i = none) ∧
    st.stores.Nodup := by
  obtain ⟨⟨h0, -, hst, hocc⟩, -, -⟩ := fill_loop_spec v packets _ st FillInv_init h
  have hlen : N_filled st = st.frame_number.toNat := by
    unfold N_filled
    rw [hst]
    simp
  have hstores : st.stores = (List.range (N_filled st)).map (fun k : Nat => (k : Int)) := by
    rw [hlen]
    exact hst
  refine ⟨hstores, ?_, ?_, ?_⟩
  · intro i hi
    exact (hocc i (by omega)).2 (by omega)
  · intro i hi hC
    have := hocc i hC
    cases hg : array_get st.rgb_frame_array i with
    | none => rfl
    | some f =>
      rw [hg] at this
      simp only [Option.isSome_some, true_iff] at this
      omega
  · rw [hstores]
    exact (List.nodup_range _).map (fun a b hab => by simpa using hab)

/-- C5 at a file of four one-frame packets: the stores went to 0, 1, 2, 3,
slots 0..3 are occupied and slots 4..99 are empty. -/
theorem C5_slots_after_fill_witness :
    fill_loop 0 (clip 4) FillState.init = .ok (after_packets 4) ∧
    N_filled (after_packets 4) ≤ NUM_FRAMES ∧
    ((after_packets 4).stores =
        (List.range (N_filled (after_packets 4))).map (fun k : Nat => (k : Int)) ∧
      (∀ i : Nat, i < N_filled (after_packets 4) →
        (array_get (after_packets 4).rgb_frame_array i).isSome) ∧
      (∀ i : Nat, N_filled (after_packets 4) ≤ i → i < NUM_FRAMES →
        array_get (after_packets 4).rgb_frame_array i = none) ∧
      (after_packets 4).stores.Nodup) :=
  ⟨rfl, by decide, C5_slots_after_fill 0 (clip 4) (after_packets 4) rfl (by decide)⟩

/-- C6: a file whose video stream opens but yields no frame should end in a
reported fatal error.  The program at a file without packets, and at a file
whose only video packet decodes to no frame: `main` creates the window,
registers the timer and returns 0; every slot is empty, so the first redraw
has no frame to read. -/
theorem C6_no_frames_still_plays :
    main (media []) = Run.playing (List.replicate NUM_FRAMES none) 0 SPEED_OF_VIDEO 0 ∧
    main (media [video_packet []]) =
      Run.playing (List.replicate NUM_FRAMES none) 0 SPEED_OF_VIDEO 0 ∧
    on_draw_event (List.replicate NUM_FRAMES none) 0 surface_stride = none :=
  ⟨rfl, rfl, by decide⟩

/-- C7: when `decode_packet` returns a negative value for a video packet the
fill loop reaches, in a fill that stored no more than `NUM_FRAMES` frames
(so that every store went to a slot of the array), the loop ends in the state
that packet left (whatever packets follow), every frame stored before is
still in its slot, and `main` goes on to create the window and start the
timer over that array, returning 0 when the event loop ends. -/
theorem C7_decode_error_ends_fill (m : MediaFile) (v : Int) (pre post : List AVPacket)
    (p : AVPacket) (s s1 : FillState) (r : Int)
    (hstart : startup m = .ok v) (hsplit : m.packets = pre ++ p :: post)
    (hpre : fill_loop v pre FillState.init = .ok s) (hresp : 0 ≤ s.response)
    (hnum : 0 < s.num_of_packets_to_process) (hv : p.stream_index = v)
    (hdec : decode_packet p s = .ok (r, s1)) (hr : r < 0)
    (hN : N_filled s1 ≤ NUM_FRAMES) :
    fill_loop v m.packets FillState.init = .ok { s1 with response := r } ∧
    (∀ post2 : List AVPacket,
      fill_loop v (pre ++ p :: post2) FillState.init = .ok { s1 with response := r }) ∧
    (∀ (i : Int) (f : AVFrame), array_get s.rgb_frame_array i = some f →
      array_get s1.rgb_frame_array i = some f) ∧
    stores_in_array s1 = true ∧
    main m = Run.playing s1.rgb_frame_array 0 SPEED_OF_VIDEO 0 := by
  have hany : ∀ post2 : List AVPacket,
      fill_loop v (pre ++ p :: post2) FillState.init = .ok { s1 with response := r } := by
    intro post2
    rw [fill_loop_append v pre (p :: post2) _ s hpre hresp hnum]
    simp only [fill_loop, hv, if_true, hdec, hr]
  have hfill : fill_loop v m.packets FillState.init = .ok { s1 with response := r } := by
    rw [hsplit]
    exact hany post
  obtain ⟨is, -, -⟩ := fill_loop_spec v pre _ s FillInv_init hpre
  obtain ⟨i1, -, -, -, keep⟩ := decode_packet_spec p s s1 r is hdec
  have hin : stores_in_array s1 = true := stores_in_array_of_le s1 i1 hN
  exact ⟨hfill, hany, keep, hin,
    main_of_fill m v { s1 with response := r } hstart hfill hin⟩

/-- C7 at a file whose second video packet is rejected: startup succeeds,
the loop reaches the second packet, `decode_packet` returns
`AVERROR_INVALIDDATA` for it, one frame was stored, the loop ends there
whatever follows, the frame of the first packet stays in slot 0, and the
program plays. -/
theorem C7_decode_error_ends_fill_witness :
    startup (media clip_bad_second) = .ok 0 ∧
    fill_loop 0 (clip 1) FillState.init = .ok (after_packets 1) ∧
    decode_packet bad_packet (after_packets 1) = .ok (-1094995529, after_packets 1) ∧
    N_filled (after_packets 1) ≤ NUM_FRAMES ∧
    (fill_loop 0 (media clip_bad_second).packets FillState.init =
        .ok { after_packets 1 with response := -1094995529 } ∧
      (∀ post2 : List AVPacket,
        fill_loop 0 (clip 1 ++ bad_packet :: post2) FillState.init =
          .ok { after_packets 1 with response := -1094995529 }) ∧
      (∀ (i : Int) (f : AVFrame), array_get (after_packets 1).rgb_frame_array i = some f →
        array_get (after_packets 1).rgb_frame_array i = some f) ∧
      stores_in_array (after_packets 1) = true ∧
      main (media clip_bad_second) =
        Run.playing (after_packets 1).rgb_frame_array 0 SPEED_OF_VIDEO 0) :=
  ⟨rfl, rfl, rfl, by decide,
    C7_decode_error_ends_fill (media clip_bad_second) 0 (clip 1)
      [video_packet [solid 1 1 0]] bad_packet (after_packets 1) (after_packets 1)
      (-1094995529) rfl rfl rfl (by decide) (by decide) rfl rfl (by decide) (by decide)⟩

/-- C8: a failed allocation in `allocateFrame` should end the process.  The
program when `av_frame_alloc` succeeds and `av_image_alloc` fails:
`allocateFrame` returns a frame without a pixel buffer, `save_rgb_frame`
stores it in slot 0 and `main` goes on to play with it. -/
theorem C8_image_alloc_failure_goes_on :
    allocateFrame 320 250 true false = .ok bufferless_frame ∧
    save_rgb_frame (solid 320 250 0) 1 true false { FillState.init with frame_number := 1 } =
      .ok { FillState.init with
        frame_number := 1
        rgb_frame_array := some bufferless_frame :: List.replicate 99 none
        stores := [0] } ∧
    main (media [starved_packet]) =
      Run.playing (some bufferless_frame :: List.replicate 99 none) 0 SPEED_OF_VIDEO 0 ∧
    array_get (some bufferless_frame :: List.replicate 99 none) 0 = some bufferless_frame :=
  ⟨rfl, rfl, rfl, by decide⟩

/-- C9: for the frame at the cursor, every row `y < WIN_HEIGHT` and pixel
`x < linesize / 3`, `on_draw_event` writes at byte offset `y * stride + 4 * x`
of the surface the word `(r << 16) | (g << 8) | b` built from the bytes `r`,
`g`, `b` at offsets `y * linesize + 3 * x + 0, 1, 2` of the frame buffer; the
word is below `2^24` and its three low bytes give back `r`, `g` and `b`. -/
theorem C9_pixel_word (arr : List (Option AVFrame)) (animate_position : Int) (stride : Nat)
    (frame : AVFrame) (y x : Nat) (r g b : Byte)
    (hframe : array_get arr animate_position = some frame)
    (hy : y < WIN_HEIGHT) (hx : x < frame.linesize / 3)
    (hr : frame.data[y * frame.linesize + x * 3 + 0]? = some r)
    (hg : frame.data[y * frame.linesize + x * 3 + 1]? = some g)
    (hb : frame.data[y * frame.linesize + x * 3 + 2]? = some b) :
    on_draw_event arr animate_position stride = some (draw_rows frame stride) ∧
    ({ src := y * frame.linesize + x * 3, dst := y * stride + 4 * x,
       word := some (pack_rgb r.val g.val b.val) } : PixelCopy) ∈ draw_rows frame stride ∧
    pack_rgb r.val g.val b.val = (r.val <<< 16) ||| (g.val <<< 8) ||| b.val ∧
    pack_rgb r.val g.val b.val < 2 ^ 24 ∧
    (pack_rgb r.val g.val b.val >>> 16) &&& 255 = r.val ∧
    (pack_rgb r.val g.val b.val >>> 8) &&& 255 = g.val ∧
    pack_rgb r.val g.val b.val &&& 255 = b.val := by
  have hr8 := r.isLt
  have hg8 := g.isLt
  have hb8 := b.isLt
  have hp := pack_rgb_eq r.val g.val b.val hr8 hg8 hb8
  have h255 : (255 : Nat) = 2 ^ 8 - 1 := by norm_num
  refine ⟨by simp [on_draw_event, hframe], ?_, ?_, ?_, ?_, ?_, ?_⟩
  · rw [mem_draw_rows]
    refine ⟨y, hy, x, hx, ?_⟩
    simp only [copy_pixel, hr, hg, hb]
  · rw [hp]
    have hgb : 2 ^ 8 * g.val + b.val < 2 ^ 16 := by omega
    have h2 : 2 ^ 8 * g.val ||| b.val = 2 ^ 8 * g.val + b.val :=
      (Nat.mul_add_lt_is_or (by omega) g.val).symm
    have e1 : r.val <<< 16 = 2 ^ 16 * r.val := by rw [Nat.shiftLeft_eq]; ring
    have e2 : g.val <<< 8 = 2 ^ 8 * g.val := by rw [Nat.shiftLeft_eq]; ring
    rw [e1, e2, Nat.lor_assoc, h2, ← Nat.mul_add_lt_is_or hgb r.val]
    omega
  · rw [hp]; omega
  · rw [hp, h255, Nat.and_pow_two_sub_one_eq_mod, Nat.shiftRight_eq_div_pow]; omega
  · rw [hp, h255, Nat.and_pow_two_sub_one_eq_mod, Nat.shiftRight_eq_div_pow]; omega
  · rw [hp, h255, Nat.and_pow_two_sub_one_eq_mod]; omega

/-- C9 at a frame of one row of two pixels with bytes 1..6: pixel 1 of row 0
is written at byte offset 4 with the word `0x040506`, whose bytes are 4, 5
and 6. -/
theorem C9_pixel_word_witness :
    array_get [some { width := 2, height := 1, linesize := 6, data := [1, 2, 3, 4, 5, 6] }] 0 =
      some { width := 2, height := 1, linesize := 6, data := [1, 2, 3, 4, 5, 6] } ∧
    ({ src := 3, dst := 4, word := some 263430 } : PixelCopy) ∈
      draw_rows { width := 2, height := 1, linesize := 6, data := [1, 2, 3, 4, 5, 6] }
        surface_stride ∧
    (263430 : Nat) < 2 ^ 24 ∧ (263430 >>> 16) &&& 255 = 4 ∧ (263430 >>> 8) &&& 255 = 5 ∧
    263430 &&& 255 = 6 :=
  have h := C9_pixel_word
    [some { width := 2, height := 1, linesize := 6, data := [1, 2, 3, 4, 5, 6] }]
    0 surface_stride { width := 2, height := 1, linesize := 6, data := [1, 2, 3, 4, 5, 6] }
    0 1 4 5 6 (by decide) (by decide) (by decide) (by decide) (by decide) (by decide)
  ⟨by decide, h.2.1, h.2.2.2.1, h.2.2.2.2.1, h.2.2.2.2.2.1, h.2.2.2.2.2.2⟩

/-- C10: every read of `on_draw_event` should stay inside the frame buffer
and every write for row `y` inside row `y` of the surface.  The program at a
stored frame of 640 x 480: pixel 320 of row 0 is written at the first word of
row 1, and pixel 639 of row 249 is written past the end of the surface of
`stride * WIN_HEIGHT` bytes.  At a stored frame of 100 x 100: row 100 is read
at offset 30000, the size of its buffer. -/
theorem C10_draw_leaves_buffers :
    (copy_pixel (stored_frame 640 480) surface_stride 0 320 ∈
        draw_rows (stored_frame 640 480) surface_stride ∧
      (copy_pixel (stored_frame 640 480) surface_stride 0 320).dst = 1 * surface_stride) ∧
    (copy_pixel (stored_frame 640 480) surface_stride 249 639 ∈
        draw_rows (stored_frame 640 480) surface_stride ∧
      surface_stride * WIN_HEIGHT <
        (copy_pixel (stored_frame 640 480) surface_stride 249 639).dst) ∧
    (copy_pixel (stored_frame 100 100) surface_stride 100 0 ∈
        draw_rows (stored_frame 100 100) surface_stride ∧
      (stored_frame 100 100).data.length = 30000 ∧
      (stored_frame 100 100).linesize * (stored_frame 100 100).height = 30000 ∧
      (copy_pixel (stored_frame 100 100) surface_stride 100 0).src = 30000 ∧
      (copy_pixel (stored_frame 100 100) surface_stride 100 0).word = none) := by
  have hy0 : 0 < WIN_HEIGHT := by decide
  have hy249 : 249 < WIN_HEIGHT := by decide
  have hy100 : 100 < WIN_HEIGHT := by decide
  refine ⟨⟨?_, ?_⟩, ⟨?_, ?_⟩, ⟨?_, ?_, ?_, ?_, ?_⟩⟩
  · rw [mem_draw_rows]
    exact ⟨0, hy0, 320, by rw [stored_frame_linesize]; omega, rfl⟩
  · simp only [copy_pixel, surface_stride, WIN_WIDTH]
  · rw [mem_draw_rows]
    exact ⟨249, hy249, 639, by rw [stored_frame_linesize]; omega, rfl⟩
  · simp only [copy_pixel, surface_stride, WIN_WIDTH, WIN_HEIGHT]
    omega
  · rw [mem_draw_rows]
    exact ⟨100, hy100, 0, by rw [stored_frame_linesize]; omega, rfl⟩
  · rw [stored_frame_data_length]
  · rw [stored_frame_linesize, stored_frame_height]
  · simp only [copy_pixel, stored_frame_linesize]
  · apply copy_pixel_word_none
    rw [stored_frame_data_length, stored_frame_linesize]

/-- C11: whatever number of frames was stored (the cursor logic never looks
at the frame array), `update_position` resets the cursor to 0 exactly when
it is `NUM_FRAMES - 2` and otherwise adds one; so from 0 the cursor after
`t` ticks is `t mod (NUM_FRAMES - 1) = t mod 99`: the first 99 values are
0, 1, ..., 98 in this order, the sequence repeats every 99 ticks, and the
cursor is never `NUM_FRAMES - 1 = 99`. -/
theorem C11_cursor_cycles_mod_99 (t : Nat) :
    (∀ p : Int, update_position p = if p = (NUM_FRAMES : Int) - 2 then 0 else p + 1) ∧
    NUM_FRAMES - 1 = 99 ∧
    animate_position_after t = ((t % (NUM_FRAMES - 1) : Nat) : Int) ∧
    (List.range 99).map animate_position_after = (List.range 99).map (fun k : Nat => (k : Int)) ∧
    animate_position_after (t + (NUM_FRAMES - 1)) = animate_position_after t ∧
    animate_position_after t ≠ (NUM_FRAMES : Int) - 1 := by
  refine ⟨fun p => rfl, rfl, animate_position_after_eq t, by decide, ?_, ?_⟩
  · rw [animate_position_after_eq, animate_position_after_eq, Nat.add_mod_right]
  · have h := (animate_position_after_range t).2
    omega

end A5
